import Mathlib

/-!
Verification of the metadata-driven dynamic record engine
(NestJS/Prisma service: `DynamicService`, `DynamicQueryBuilder`,
`DynamicQueryExecutor`, `DynamicMetadataReader`, `MetadataService`).

The TypeScript sources are shallowly embedded below:

* JavaScript runtime values are modelled by `DynWS.JsVal`; plain objects are
  insertion-ordered association lists (`DynWS.JsObj`) with unique keys by
  construction, and property assignment is `DynWS.objSet`.
* JavaScript built-ins whose full behaviour is out of scope (`JSON.parse`,
  `JSON.stringify`, `new RegExp(...).test(...)`, `parseFloat`, `Date.parse`)
  are abstracted as an oracle structure `DynWS.JsRuntime`; the embedded code
  is parameterised over it, and concrete instantiations are supplied in
  witnesses/counterexamples (documented where they occur).
* Thrown exceptions are modelled with `Except`: `JsThrow.badRequest` is a
  NestJS `BadRequestException` (HTTP 400), `JsThrow.uncaught` is any other
  thrown error (TypeError, invalid-regexp error, ...), which NestJS surfaces
  as HTTP 500.
* The Prisma database is a record store `DynWS.Db`; the semantics of the
  Prisma calls reached through `DynamicQueryExecutor.execute` is given by
  the `exec*` functions.
-/

namespace DynWS

/-- Model of a JavaScript runtime value (the `any` type of the service).
`undef` is the result of reading an absent property. -/
inductive JsVal where
  | undefVal : JsVal
  | null : JsVal
  | bool : Bool → JsVal
  | num : Rat → JsVal
  | str : String → JsVal
  | arr : List JsVal → JsVal
  | obj : List (String × JsVal) → JsVal

/-- A JavaScript plain object (`Record<string, any>`): insertion-ordered
association list. Objects produced by the embedded code have unique keys,
mirroring JS objects. -/
abbrev JsObj := List (String × JsVal)

/-- JS property assignment `o[k] = v`: replace in place if the key exists
(JS objects have at most one entry per key), otherwise append. -/
def objSet : JsObj → String → JsVal → JsObj
  | [], k, v => [(k, v)]
  | kv :: rest, k, v =>
    if kv.1 = k then (k, v) :: rest else kv :: objSet rest k v

/-- JS property read `o[k]`: yields `undef` when the key is absent. -/
def objGet (o : JsObj) (k : String) : JsVal :=
  match o.find? (fun kv => kv.1 = k) with
  | some kv => kv.2
  | none => .undefVal

/-- Whether the object has the key. -/
def containsKey (o : JsObj) (k : String) : Bool :=
  o.any (fun kv => kv.1 = k)

/-- JS object spread `{ ...base, ...src }` restricted to its effect on
`base`: fold JS property assignment of every entry of `src` over `base`
(spread copies own enumerable properties in insertion order). -/
def spreadInto (base : JsObj) (src : JsObj) : JsObj :=
  src.foldl (fun acc kv => objSet acc kv.1 kv.2) base

/-- What `{ ...x }` enumerates for a non-object `x`: strings and arrays
spread their indexed elements, primitives spread nothing. -/
def toSpreadable : JsVal → JsObj
  | .obj kvs => kvs
  | .arr xs => xs.enum.map (fun iv => (toString iv.1, iv.2))
  | .str s => s.data.enum.map (fun ic => (toString ic.1, .str (String.singleton ic.2)))
  | _ => []

/-- JS strict equality `===` on the values compared by the service.
Arrays and objects compare by reference; in the embedded code the two
sides of every such comparison come from different allocations, so the
comparison is `false` there. NaN is not modelled. -/
def jsStrictEq : JsVal → JsVal → Bool
  | .undefVal, .undefVal => true
  | .null, .null => true
  | .bool a, .bool b => a = b
  | .num a, .num b => a = b
  | .str a, .str b => a = b
  | _, _ => false

/-- `String.prototype.toLowerCase()` (adequate for the ASCII identifiers
the service deals in). Defined over the character list so that it reduces
in the kernel. -/
def jsToLowerCase (s : String) : String := ⟨s.data.map Char.toLower⟩

/-- JS `value.length` as read by the validator: defined for strings and
arrays, `undefined` (here `none`) otherwise. -/
def jsLength : JsVal → Option Nat
  | .str s => some s.length
  | .arr xs => some xs.length
  | _ => none

/-- JS `x > n` where `x` may be `undefined`: any comparison with
`undefined` is false. -/
def jsGTNat : Option Nat → Nat → Bool
  | none, _ => false
  | some a, b => a > b

/-- JS `x < n` where `x` may be `undefined`. -/
def jsLTNat : Option Nat → Nat → Bool
  | none, _ => false
  | some a, b => a < b

/-- JS truthiness of a nullable number (`field.maxLength && ...`):
`null`/`undefined` and `0` are falsy. -/
def jsTruthyOptNat : Option Nat → Bool
  | none => false
  | some n => n ≠ 0

/-- JS truthiness of a nullable string (`field.pattern && ...`,
`field.options && ...`): `null`/`undefined` and `""` are falsy. -/
def jsTruthyOptStr : Option String → Bool
  | none => false
  | some s => s ≠ ""

/-- `Number.isInteger(value)`: true exactly for numbers with no fractional
part (no coercion). -/
def jsNumberIsInteger : JsVal → Bool
  | .num q => q.den = 1
  | _ => false

/-- `typeof value === 'boolean'`. -/
def jsTypeofIsBoolean : JsVal → Bool
  | .bool _ => true
  | _ => false

/-- Oracle for the JavaScript built-ins the service calls but whose full
semantics is outside this embedding. Each field models one built-in:

* `jsonParse s`: `JSON.parse(s)`; `none` models a thrown `SyntaxError`.
* `jsonStringify v`: `JSON.stringify(v)` (total on the service's data).
* `regexCompile p`: `new RegExp(p)`; `none` models the constructor
  throwing on an invalid pattern, `some test` is the compiled regex with
  `test v` standing for `regex.test(v)` (including JS string coercion).
* `parseFloatIsNaN v`: `isNaN(parseFloat(v))`.
* `dateParseIsNaN v`: `isNaN(Date.parse(v))`. -/
structure JsRuntime where
  jsonParse : String → Option JsVal
  jsonStringify : JsVal → String
  regexCompile : String → Option (JsVal → Bool)
  parseFloatIsNaN : JsVal → Bool
  dateParseIsNaN : JsVal → Bool

/-- A thrown JS exception: `badRequest` is `BadRequestException` (HTTP
400), `uncaught` is any other error object (HTTP 500 when it escapes). -/
inductive JsThrow where
  | badRequest : String → JsThrow
  | uncaught : String → JsThrow
deriving Repr, DecidableEq

/-- `DynamicService.safeParseJson`: returns `null` (`none`) for a falsy
input string and swallows `JSON.parse` errors, logging a warning. -/
def safeParseJson (rt : JsRuntime) (value : Option String) : Option JsVal :=
  match value with
  | none => none
  | some s => if s = "" then none else rt.jsonParse s

end DynWS

namespace DynWS

/-- `FieldDefinitionDto` / Prisma `FieldDefinition` row. Nullable columns
are `Option`; `displayOrder` is a JS number used only for ordering. -/
structure FieldDefinitionDto where
  id : Nat
  entityId : Nat
  fieldName : String
  displayName : String
  fieldType : String
  isRequired : Bool
  isUnique : Bool
  maxLength : Option Nat
  minLength : Option Nat
  pattern : Option String
  defaultValue : Option String
  options : Option String
  displayOrder : Int
  isDeleted : Bool
deriving Repr, DecidableEq

/-- Prisma `EntityDefinition` row (without the `include`d relation). -/
structure EntityDefinitionRow where
  id : Nat
  entityName : String
  displayName : String
  tableName : String
  description : String
  isDeleted : Bool
deriving Repr, DecidableEq

/-- `EntityDefinitionDto`: an entity row together with the `fields`
relation materialised by a Prisma `include`. -/
structure EntityDefinitionDto where
  id : Nat
  entityName : String
  displayName : String
  tableName : String
  description : String
  isDeleted : Bool
  fields : List FieldDefinitionDto
deriving Repr, DecidableEq

/-- `DynamicEntityContext` from `engine/query.types.ts`. -/
structure DynamicEntityContext where
  entity : EntityDefinitionDto
  fields : List FieldDefinitionDto
deriving Repr, DecidableEq

/-- `PaginationOptions` from `engine/query.types.ts` (JS numbers, so the
caller may pass zero or negative values). -/
structure PaginationOptions where
  page : Int
  pageSize : Int
deriving Repr, DecidableEq

/- Error message builders for the exceptions thrown by the service. -/

def requiredMsg (displayName : String) : String :=
  "Field \x27" ++ displayName ++ "\x27 is required"

def maxLengthMsg (displayName : String) (m : Nat) : String :=
  "Field \x27" ++ displayName ++ "\x27 exceeds maximum length of " ++ toString m

def minLengthMsg (displayName : String) (m : Nat) : String :=
  "Field \x27" ++ displayName ++ "\x27 is below minimum length of " ++ toString m

def formatMsg (displayName : String) : String :=
  "Field \x27" ++ displayName ++ "\x27 format is invalid"

def integerMsg (displayName : String) : String :=
  "Field \x27" ++ displayName ++ "\x27 must be an integer"

def decimalMsg (displayName : String) : String :=
  "Field \x27" ++ displayName ++ "\x27 must be a decimal number"

def booleanMsg (displayName : String) : String :=
  "Field \x27" ++ displayName ++ "\x27 must be a boolean"

def datetimeMsg (displayName : String) : String :=
  "Field \x27" ++ displayName ++ "\x27 must be a valid date"

def invalidValueMsg (displayName : String) : String :=
  "Field \x27" ++ displayName ++ "\x27 has invalid value"

def invalidRegexMsg (p : String) : String :=
  "Invalid regular expression: " ++ p

/-- `o.value` for an element of the parsed options array. Reading a
property of `null`/`undefined` throws a TypeError; primitives are boxed
and yield `undefined`; arrays have no `value` property. -/
def jsReadValueProp : JsVal → Except JsThrow JsVal
  | .null => .error (.uncaught "Cannot read properties of null")
  | .undefVal => .error (.uncaught "Cannot read properties of undefined")
  | .obj kvs => .ok (objGet kvs "value")
  | _ => .ok .undefVal

/-- `options.map((o: any) => o.value)`: throws a TypeError when `options`
is not an array (`.map is not a function`). -/
def jsMapValueProp : JsVal → Except JsThrow (List JsVal)
  | .arr xs => xs.mapM jsReadValueProp
  | _ => .error (.uncaught "options.map is not a function")

/-- Body of the `try` block of the enum check in
`DynamicService.validateRecordData` (lines 331–338): parse the options
JSON (`safeParseJson ... ?? []`), project the `value` properties, and
throw `BadRequestException` when the payload value is not among them
(`Array.prototype.includes` compares with SameValueZero, which on these
values coincides with strict equality). -/
def enumOptionsCheck (rt : JsRuntime) (field : FieldDefinitionDto) (value : JsVal) :
    Except JsThrow Unit := do
  let options := (safeParseJson rt field.options).getD (.arr [])
  let validValues ← jsMapValueProp options
  if !(validValues.any (fun v => jsStrictEq v value)) then
    throw (.badRequest (invalidValueMsg field.displayName))
  return ()

/-- One iteration of the `for (const field of fields)` loop of
`DynamicService.validateRecordData` (lines 262–346), checking a single
field against the already-lowercased payload. Faithful points:

* the checks run in source order and `throw` aborts the iteration;
* a `null`/`undefined`/`''` optional value skips the remaining checks
  (`continue`);
* `field.maxLength && ...` style guards use JS truthiness, so `0`/`null`
  length bounds and an empty `pattern`/`options` string disable the check;
* `new RegExp(field.pattern)` is **not** wrapped in try/catch: an invalid
  pattern makes the whole validation throw an uncaught error;
* the whole enum check **is** wrapped in `try { ... } catch { warn }`, so
  every exception it throws — including its own `BadRequestException` —
  is swallowed and only logged. -/
def checkField (rt : JsRuntime) (field : FieldDefinitionDto) (normalizedData : JsObj) :
    Except JsThrow Unit := do
  let value := objGet normalizedData (jsToLowerCase field.fieldName)
  if field.isRequired &&
      (jsStrictEq value .null || jsStrictEq value .undefVal || jsStrictEq value (.str "")) then
    throw (.badRequest (requiredMsg field.displayName))
  if jsStrictEq value .null || jsStrictEq value .undefVal || jsStrictEq value (.str "") then
    return ()
  if field.fieldType = "string" then do
    match field.maxLength with
    | some maxLength =>
      if maxLength ≠ 0 && jsGTNat (jsLength value) maxLength then
        throw (.badRequest (maxLengthMsg field.displayName maxLength))
    | none => pure ()
    match field.minLength with
    | some minLength =>
      if minLength ≠ 0 && jsLTNat (jsLength value) minLength then
        throw (.badRequest (minLengthMsg field.displayName minLength))
    | none => pure ()
    match field.pattern with
    | some p =>
      if p ≠ "" then
        match rt.regexCompile p with
        | none => throw (.uncaught (invalidRegexMsg p))
        | some test =>
          if !(test value) then
            throw (.badRequest (formatMsg field.displayName))
    | none => pure ()
  if field.fieldType = "integer" && !(jsNumberIsInteger value) then
    throw (.badRequest (integerMsg field.displayName))
  if field.fieldType = "decimal" && rt.parseFloatIsNaN value then
    throw (.badRequest (decimalMsg field.displayName))
  if field.fieldType = "boolean" && !(jsTypeofIsBoolean value) then
    throw (.badRequest (booleanMsg field.displayName))
  if field.fieldType = "datetime" then
    if rt.dateParseIsNaN value then
      throw (.badRequest (datetimeMsg field.displayName))
  if field.fieldType = "enum" && jsTruthyOptStr field.options then
    match enumOptionsCheck rt field value with
    | .error _ => pure ()
    | .ok () => pure ()
  return ()

/-- The lowercased copy of the payload built before the loop
(lines 257–260): later entries win when two keys collide after
lowercasing. -/
def normalizeDataKeys (data : JsObj) : JsObj :=
  data.foldl (fun acc kv => objSet acc (jsToLowerCase kv.1) kv.2) []

/-- The field loop of `validateRecordData`: check each field in order,
stopping at (and propagating) the first thrown exception. -/
def validateFields (rt : JsRuntime) (fields : List FieldDefinitionDto)
    (normalizedData : JsObj) : Except JsThrow Unit :=
  match fields with
  | [] => .ok ()
  | f :: rest => do
    checkField rt f normalizedData
    validateFields rt rest normalizedData

/-- `DynamicService.validateRecordData(context, data)` (lines 247–347).
(The `fieldMap` built at line 254 is dead code — the loop iterates
`fields` directly — and is therefore not modelled.) -/
def validateRecordData (rt : JsRuntime) (context : DynamicEntityContext)
    (data : JsObj) : Except JsThrow Unit :=
  validateFields rt context.fields (normalizeDataKeys data)

/-- The payload normalisation of `DynamicService.createRecord`
(lines 136–142): keep only keys that case-insensitively match a field of
the context, stored under the metadata spelling `matchingField.fieldName`;
keys with no matching field are dropped. -/
def normalizePayload (context : DynamicEntityContext) (dto : JsObj) : JsObj :=
  dto.foldl (fun acc kv =>
    match context.fields.find?
        (fun f => jsToLowerCase f.fieldName = jsToLowerCase kv.1) with
    | some matchingField => objSet acc matchingField.fieldName kv.2
    | none => acc) []

/-- The merge `{ ...existing.data, ...dto }` of
`DynamicService.updateRecord` (line 189). -/
def mergeForUpdate (existingData : JsVal) (dto : JsObj) : JsObj :=
  spreadInto (spreadInto [] (toSpreadable existingData)) dto

end DynWS

namespace DynWS

/-- Prisma `DynamicRecord` row: the open payload is persisted as a JSON
text column `data`. `createdAt` is a timestamp used for ordering. -/
structure DynamicRecord where
  id : String
  entityId : Nat
  data : String
  isDeleted : Bool
  createdAt : Int
deriving Repr, DecidableEq

/-- The Prisma database as seen by the services: the three tables the
engine touches. -/
structure Db where
  entityDefinitions : List EntityDefinitionRow
  fieldDefinitions : List FieldDefinitionDto
  dynamicRecords : List DynamicRecord
deriving Repr, DecidableEq

/-- A `where` object over `dynamicRecord` as built by
`DynamicQueryBuilder`: each present component must match. -/
structure WhereDynamicRecord where
  id : Option String
  entityId : Option Nat
  isDeleted : Option Bool
deriving Repr, DecidableEq

/-- The `args` objects of the five descriptor shapes produced by
`DynamicQueryBuilder` (the heterogeneous `Record<string, unknown>` of
`query.types.ts`, split by shape). `findManyArgs` records the constant
`orderBy: { createdAt: 'desc' }` as a flag. `updateArgs` carries the two
`data` update shapes used by the builder (`{ data: json }` and
`{ isDeleted: true }`). -/
inductive QueryArgs where
  | findManyArgs : WhereDynamicRecord → Int → Int → Bool → QueryArgs
  | countArgs : WhereDynamicRecord → QueryArgs
  | findFirstArgs : WhereDynamicRecord → QueryArgs
  | createArgs : Nat → String → QueryArgs
  | updateArgs : String → Option String → Option Bool → QueryArgs
deriving Repr, DecidableEq

/-- `QueryDescriptor` from `engine/query.types.ts`. -/
structure QueryDescriptor where
  model : String
  action : String
  args : QueryArgs
deriving Repr, DecidableEq

/-- `DynamicQueryBuilder.buildFindMany` (query-builder.service.ts 10–26). -/
def buildFindMany (context : DynamicEntityContext) (pagination : PaginationOptions) :
    QueryDescriptor :=
  let skip := (pagination.page - 1) * pagination.pageSize
  { model := "dynamicRecord"
    action := "findMany"
    args := .findManyArgs
      { id := none, entityId := some context.entity.id, isDeleted := some false }
      skip pagination.pageSize true }

/-- `DynamicQueryBuilder.buildCount` (lines 28–36). -/
def buildCount (context : DynamicEntityContext) : QueryDescriptor :=
  { model := "dynamicRecord"
    action := "count"
    args := .countArgs
      { id := none, entityId := some context.entity.id, isDeleted := some false } }

/-- `DynamicQueryBuilder.buildFindOne` (lines 38–53). -/
def buildFindOne (context : DynamicEntityContext) (recordId : String) :
    QueryDescriptor :=
  { model := "dynamicRecord"
    action := "findFirst"
    args := .findFirstArgs
      { id := some recordId, entityId := some context.entity.id, isDeleted := some false } }

/-- `DynamicQueryBuilder.buildCreate` (lines 55–69): the payload is
serialised with `JSON.stringify`. -/
def buildCreate (rt : JsRuntime) (context : DynamicEntityContext) (payload : JsObj) :
    QueryDescriptor :=
  { model := "dynamicRecord"
    action := "create"
    args := .createArgs context.entity.id (rt.jsonStringify (.obj payload)) }

/-- `DynamicQueryBuilder.buildUpdate` (lines 71–85). -/
def buildUpdate (rt : JsRuntime) (recordId : String) (payload : JsObj) :
    QueryDescriptor :=
  { model := "dynamicRecord"
    action := "update"
    args := .updateArgs recordId (some (rt.jsonStringify (.obj payload))) none }

/-- `DynamicQueryBuilder.buildSoftDelete` (lines 87–96). -/
def buildSoftDelete (recordId : String) : QueryDescriptor :=
  { model := "dynamicRecord"
    action := "update"
    args := .updateArgs recordId none (some true) }

/-- Whether a record satisfies a `where` object. -/
def matchesWhere (w : WhereDynamicRecord) (r : DynamicRecord) : Bool :=
  (match w.id with | some i => r.id = i | none => true) &&
  (match w.entityId with | some e => r.entityId = e | none => true) &&
  (match w.isDeleted with | some d => r.isDeleted = d | none => true)

/-- `orderBy: { createdAt: 'desc' }` on `dynamicRecord`. -/
def sortByCreatedAtDesc (rs : List DynamicRecord) : List DynamicRecord :=
  rs.insertionSort (fun a b => b.createdAt ≤ a.createdAt)

/-- `prisma.dynamicRecord.findFirst({ where })`: first matching row. -/
def execFindFirst (db : Db) (w : WhereDynamicRecord) : Option DynamicRecord :=
  db.dynamicRecords.find? (matchesWhere w)

/-- `prisma.dynamicRecord.findMany({ where, skip, take, orderBy })`.
(`skip`/`take` edge semantics for negative arguments are not
claim-relevant; filtering and ordering are the modelled content.) -/
def execFindMany (db : Db) (w : WhereDynamicRecord) (skip take : Int) :
    List DynamicRecord :=
  (((sortByCreatedAtDesc (db.dynamicRecords.filter (matchesWhere w)))).drop skip.toNat).take take.toNat

/-- `prisma.dynamicRecord.count({ where })`. -/
def execCount (db : Db) (w : WhereDynamicRecord) : Nat :=
  (db.dynamicRecords.filter (matchesWhere w)).length

/-- Apply the `data` object of an update descriptor to a row. -/
def applyUpdate (r : DynamicRecord) (setData : Option String) (setIsDeleted : Option Bool) :
    DynamicRecord :=
  { r with
    data := setData.getD r.data
    isDeleted := setIsDeleted.getD r.isDeleted }

/-- Replace the first row with the given id. -/
def replaceFirstById : List DynamicRecord → String → DynamicRecord → List DynamicRecord
  | [], _, _ => []
  | r :: rest, i, r2 =>
    if r.id = i then r2 :: rest else r :: replaceFirstById rest i r2

/-- `prisma.dynamicRecord.update({ where: { id }, data })`: Prisma throws
(`P2025`, an uncaught error from the service's point of view) when no row
has the id; otherwise it updates that row and returns it. -/
def execUpdate (db : Db) (whereId : String) (setData : Option String)
    (setIsDeleted : Option Bool) : Except JsThrow (Db × DynamicRecord) :=
  match db.dynamicRecords.find? (fun r => r.id = whereId) with
  | none => .error (.uncaught "Record to update not found")
  | some r =>
    let r2 := applyUpdate r setData setIsDeleted
    .ok ({ db with dynamicRecords := replaceFirstById db.dynamicRecords whereId r2 }, r2)

/-- `prisma.dynamicRecord.create({ data })`: insert a fresh row. The
backend-assigned id and clock are inputs of the embedding. -/
def execCreate (db : Db) (freshId : String) (now : Int) (entityId : Nat)
    (dataJson : String) : Db × DynamicRecord :=
  let r : DynamicRecord :=
    { id := freshId, entityId := entityId, data := dataJson,
      isDeleted := false, createdAt := now }
  ({ db with dynamicRecords := db.dynamicRecords ++ [r] }, r)

/-- Errors surfaced by the services: `notFound` is `NotFoundException`
(404), `badRequest` is `BadRequestException` (400), `internalError` is an
uncaught exception (500). -/
inductive DynError where
  | notFound : String → DynError
  | badRequest : String → DynError
  | internalError : String → DynError
deriving Repr, DecidableEq

/-- How a `JsThrow` escaping the service surfaces at the HTTP layer. -/
def liftThrow : JsThrow → DynError
  | .badRequest m => .badRequest m
  | .uncaught m => .internalError m

/-- `DynamicQueryExecutor.execute` applied to a `findFirst` descriptor
(the executor dispatches `prisma[model][action](args)`; the embedding is
split per result type because TypeScript erases the generic `T`). -/
def executeReadOne (db : Db) (d : QueryDescriptor) : Except DynError (Option DynamicRecord) :=
  if d.model ≠ "dynamicRecord" then
    .error (.internalError ("Unsupported model \x27" ++ d.model ++ "\x27 in query executor"))
  else
    match d.args with
    | .findFirstArgs w => .ok (execFindFirst db w)
    | _ => .error (.internalError "unexpected result shape")

/-- `DynamicQueryExecutor.execute` applied to a `findMany` descriptor. -/
def executeReadMany (db : Db) (d : QueryDescriptor) : Except DynError (List DynamicRecord) :=
  if d.model ≠ "dynamicRecord" then
    .error (.internalError ("Unsupported model \x27" ++ d.model ++ "\x27 in query executor"))
  else
    match d.args with
    | .findManyArgs w skip take _ => .ok (execFindMany db w skip take)
    | _ => .error (.internalError "unexpected result shape")

/-- `DynamicQueryExecutor.execute` applied to a `count` descriptor. -/
def executeCount (db : Db) (d : QueryDescriptor) : Except DynError Nat :=
  if d.model ≠ "dynamicRecord" then
    .error (.internalError ("Unsupported model \x27" ++ d.model ++ "\x27 in query executor"))
  else
    match d.args with
    | .countArgs w => .ok (execCount db w)
    | _ => .error (.internalError "unexpected result shape")

/-- `DynamicQueryExecutor.execute` applied to an `update` descriptor. -/
def executeWrite (db : Db) (d : QueryDescriptor) : Except DynError (Db × DynamicRecord) :=
  if d.model ≠ "dynamicRecord" then
    .error (.internalError ("Unsupported model \x27" ++ d.model ++ "\x27 in query executor"))
  else
    match d.args with
    | .updateArgs whereId setData setIsDeleted =>
      (execUpdate db whereId setData setIsDeleted).mapError liftThrow
    | _ => .error (.internalError "unexpected result shape")

/-- `DynamicQueryExecutor.execute` applied to a `create` descriptor. -/
def executeCreateDescriptor (db : Db) (freshId : String) (now : Int)
    (d : QueryDescriptor) : Except DynError (Db × DynamicRecord) :=
  if d.model ≠ "dynamicRecord" then
    .error (.internalError ("Unsupported model \x27" ++ d.model ++ "\x27 in query executor"))
  else
    match d.args with
    | .createArgs entityId dataJson => .ok (execCreate db freshId now entityId dataJson)
    | _ => .error (.internalError "unexpected result shape")

end DynWS

namespace DynWS

def entityNotFoundMsg (entityName : String) : String :=
  "Entity \x27" ++ entityName ++ "\x27 not found"

def recordNotFoundMsg (recordId entityName : String) : String :=
  "Record " ++ recordId ++ " not found in " ++ entityName

/-- The Prisma `include` of `MetadataService.getEntityByName`: the
entity's non-deleted fields, `orderBy: { displayOrder: 'asc' }`. -/
def includeActiveFields (db : Db) (entityId : Nat) : List FieldDefinitionDto :=
  (db.fieldDefinitions.filter (fun f => f.entityId = entityId && !f.isDeleted)).insertionSort
    (fun a b => a.displayOrder ≤ b.displayOrder)

/-- String comparison under the `utf8mb4_unicode_ci` collation the
migration puts on every table (`entity_definitions` included): a
case-insensitive collation, so two strings compare equal when they agree
up to letter case (adequate for the ASCII identifiers the service deals
in; the collation's accent folding is not exercised here). Prisma's
`where: { entityName }` equality filter on MySQL compares with the
column's collation, hence with this function. -/
def collationEq (a b : String) : Bool :=
  jsToLowerCase a = jsToLowerCase b

/-- `MetadataService.getEntityByName` (metadata.service.ts 80–97):
`findFirst` on a non-deleted entity definition whose `entityName`
matches under the column collation (case-insensitively — see
`collationEq`), materialising the active fields; `NotFoundException`
when absent. -/
def getEntityByName (db : Db) (entityName : String) : Except DynError EntityDefinitionDto :=
  match db.entityDefinitions.find? (fun e => collationEq e.entityName entityName && !e.isDeleted) with
  | none => .error (.notFound (entityNotFoundMsg entityName))
  | some e =>
    .ok { id := e.id, entityName := e.entityName, displayName := e.displayName,
          tableName := e.tableName, description := e.description,
          isDeleted := e.isDeleted, fields := includeActiveFields db e.id }

/-- `DynamicMetadataReader.getEntityContext` (metadata-reader.service.ts
13–27): pair the entity with `entity.fields ?? []` (the fields are always
present after the `include`). -/
def getEntityContext (db : Db) (entityName : String) : Except DynError DynamicEntityContext := do
  let entity ← getEntityByName db entityName
  return { entity := entity, fields := entity.fields }

/-- `DynamicRecordDto` as returned to callers: the JSON `data` column
deserialised by `DynamicService.deserializeRecord`. -/
structure DynamicRecordDto where
  id : String
  entityId : Nat
  data : JsVal
  isDeleted : Bool
  createdAt : Int

/-- `DynamicService.deserializeRecord` (dynamic.service.ts 366–371):
`{ ...record, data: safeParseJson(record.data) ?? {} }`. -/
def deserializeRecord (rt : JsRuntime) (record : DynamicRecord) : DynamicRecordDto :=
  { id := record.id, entityId := record.entityId,
    data := (safeParseJson rt (some record.data)).getD (.obj []),
    isDeleted := record.isDeleted, createdAt := record.createdAt }

/-- `DynamicService.getRecordById` (dynamic.service.ts 88–110). -/
def getRecordById (rt : JsRuntime) (db : Db) (entityName recordId : String) :
    Except DynError DynamicRecordDto := do
  let context ← getEntityContext db entityName
  let record ← executeReadOne db (buildFindOne context recordId)
  match record with
  | none => throw (.notFound (recordNotFoundMsg recordId entityName))
  | some record => return deserializeRecord rt record

/-- The `buildFindMany` call of `DynamicService.getRecords`
(dynamic.service.ts 50): `page` and `pageSize` are passed through to the
builder unchanged. -/
def getRecordsQuery (context : DynamicEntityContext) (page pageSize : Int) :
    QueryDescriptor :=
  buildFindMany context { page := page, pageSize := pageSize }

/-- `DynamicService.createRecord` (dynamic.service.ts 115–168): load the
context, validate, normalise the payload to the metadata field names, and
execute the create descriptor. `freshId`/`now` stand for the
backend-assigned id and clock. -/
def createRecord (rt : JsRuntime) (db : Db) (entityName : String) (dto : JsObj)
    (freshId : String) (now : Int) : Except DynError (Db × DynamicRecordDto) := do
  let context ← getEntityContext db entityName
  (validateRecordData rt context dto).mapError liftThrow
  let normalizedPayload := normalizePayload context dto
  let (db2, record) ← executeCreateDescriptor db freshId now (buildCreate rt context normalizedPayload)
  return (db2, deserializeRecord rt record)

/-- `DynamicService.updateRecord` (dynamic.service.ts 173–211): fetch the
existing record, merge `{ ...existing.data, ...dto }`, re-validate the
merged payload, and persist it with `buildUpdate`. -/
def updateRecord (rt : JsRuntime) (db : Db) (entityName recordId : String)
    (dto : JsObj) : Except DynError (Db × DynamicRecordDto) := do
  let context ← getEntityContext db entityName
  let existing ← getRecordById rt db entityName recordId
  let mergedData := mergeForUpdate existing.data dto
  (validateRecordData rt context mergedData).mapError liftThrow
  let (db2, record) ← executeWrite db (buildUpdate rt recordId mergedData)
  return (db2, deserializeRecord rt record)

/-- `DynamicService.deleteRecord` (dynamic.service.ts 216–241): check the
record is visible via `getRecordById`, then execute the soft-delete
descriptor. All state changes flow through the returned `Db`; an `error`
result leaves the store untouched. -/
def deleteRecord (rt : JsRuntime) (db : Db) (entityName recordId : String) :
    Except DynError Db := do
  let _ ← getRecordById rt db entityName recordId
  let (db2, _) ← executeWrite db (buildSoftDelete recordId)
  return db2

end DynWS

namespace DynWS

/-! Remaining definitions: result shapes used by the theorems, and the
concrete schema/store fixtures the witness and counterexample theorems
evaluate the embedded code on. -/

/-- Accessor: the `skip` of a `findMany` descriptor. -/
def findManySkip (d : QueryDescriptor) : Int :=
  match d.args with
  | .findManyArgs _ skip _ _ => skip
  | _ => 0

/-- Accessor: the `take` of a `findMany` descriptor. -/
def findManyTake (d : QueryDescriptor) : Int :=
  match d.args with
  | .findManyArgs _ _ take _ => take
  | _ => 0

/-- The row inserted by a successful `createRecord`. -/
def createdRecordRow (rt : JsRuntime) (context : DynamicEntityContext) (dto : JsObj)
    (freshId : String) (now : Int) : DynamicRecord :=
  { id := freshId, entityId := context.entity.id,
    data := rt.jsonStringify (.obj (normalizePayload context dto)),
    isDeleted := false, createdAt := now }

/-- The store after `buildSoftDelete r` replaced the first row found with
id `r` by its soft-deleted copy. -/
def softDeleted (db : Db) (r : String) (r0 : DynamicRecord) : Db :=
  { db with dynamicRecords :=
      replaceFirstById db.dynamicRecords r (applyUpdate r0 none (some true)) }

/-- The context produced by a successful `getEntityContext` for a found
entity row. -/
def contextOfRow (db : Db) (e0 : EntityDefinitionRow) : DynamicEntityContext :=
  { entity := { id := e0.id, entityName := e0.entityName, displayName := e0.displayName,
                tableName := e0.tableName, description := e0.description,
                isDeleted := e0.isDeleted, fields := includeActiveFields db e0.id }
    fields := includeActiveFields db e0.id }

/-- Oracle instance for scenarios that exercise none of the JS built-ins:
no JSON parses, every regex fails to compile, `parseFloat`/`Date.parse`
succeed. Used only where these components are unreachable or irrelevant. -/
def rtTrivial : JsRuntime :=
  { jsonParse := fun _ => none
    jsonStringify := fun _ => "\x7b\x7d"
    regexCompile := fun _ => none
    parseFloatIsNaN := fun _ => false
    dateParseIsNaN := fun _ => false }

/-- Field fixture builder: a field with no optional constraints set. -/
def mkField (id : Nat) (name disp ty : String) (req : Bool) (ord : Int) : FieldDefinitionDto :=
  { id := id, entityId := 1, fieldName := name, displayName := disp,
    fieldType := ty, isRequired := req, isUnique := false,
    maxLength := none, minLength := none, pattern := none,
    defaultValue := none, options := none, displayOrder := ord, isDeleted := false }

/-- Entity with two required fields (claim C1 fixtures). -/
def entC1 : EntityDefinitionDto :=
  { id := 1, entityName := "Customer", displayName := "Customers",
    tableName := "Customers", description := "", isDeleted := false,
    fields := [mkField 1 "firstField" "First Field" "string" true 1,
               mkField 2 "secondField" "Second Field" "string" true 2] }

def ctxC1 : DynamicEntityContext := { entity := entC1, fields := entC1.fields }

/-- The options JSON of the spec scenario,
`[{"value":"active"},{"value":"inactive"}]`. -/
def optionsActiveInactive : String :=
  "[\x7b\"value\":\"active\"\x7d,\x7b\"value\":\"inactive\"\x7d]"

/-- What `JSON.parse` returns on `optionsActiveInactive`. -/
def parsedActiveInactive : JsVal :=
  .arr [.obj [("value", .str "active")], .obj [("value", .str "inactive")]]

/-- Oracle whose `JSON.parse` behaves as the real one does on the single
options literal the C2 scenario parses (and refuses everything else,
which that scenario never parses). -/
def rtEnum : JsRuntime :=
  { rtTrivial with
    jsonParse := fun s => if s = optionsActiveInactive then some parsedActiveInactive else none }

/-- The enum field of the spec scenario. -/
def fieldStatus : FieldDefinitionDto :=
  { mkField 1 "status" "Status" "enum" true 1 with options := some optionsActiveInactive }

def entC2 : EntityDefinitionDto :=
  { id := 2, entityName := "Subscription", displayName := "Subscriptions",
    tableName := "Subscriptions", description := "", isDeleted := false,
    fields := [fieldStatus] }

def ctxC2 : DynamicEntityContext := { entity := entC2, fields := entC2.fields }

/-- Oracle modelling `new RegExp` throwing on every pattern it is given;
the C3 scenario only ever compiles the invalid pattern `[`, on which the
real constructor does throw a SyntaxError. -/
def rtBadRegex : JsRuntime := { rtTrivial with regexCompile := fun _ => none }

/-- A string field whose `pattern` metadata, `[`, is not a valid regular
expression. -/
def fieldCode : FieldDefinitionDto :=
  { mkField 1 "code" "Code" "string" false 1 with pattern := some "[" }

def entC3 : EntityDefinitionDto :=
  { id := 3, entityName := "Widget", displayName := "Widgets",
    tableName := "Widgets", description := "", isDeleted := false,
    fields := [fieldCode] }

def ctxC3 : DynamicEntityContext := { entity := entC3, fields := entC3.fields }

/-- Entity with a single defined field (claim C5 fixtures). -/
def entC5 : EntityDefinitionDto :=
  { id := 5, entityName := "Person", displayName := "People",
    tableName := "People", description := "", isDeleted := false,
    fields := [mkField 1 "fullname" "Full Name" "string" true 1] }

def ctxC5 : DynamicEntityContext := { entity := entC5, fields := entC5.fields }

/-- Claim C7 fixtures: the spec scenario of fields `fullname`/`email`
addressed as `FullName`/`Email`. -/
def rowC7 : EntityDefinitionRow :=
  { id := 1, entityName := "Customer", displayName := "Customers",
    tableName := "Customers", description := "", isDeleted := false }

def dbC7 : Db :=
  { entityDefinitions := [rowC7]
    fieldDefinitions := [mkField 1 "fullname" "Full Name" "string" true 1,
                         mkField 2 "email" "Email" "string" true 2]
    dynamicRecords := [] }

def ctxC7 : DynamicEntityContext :=
  { entity := { id := 1, entityName := "Customer", displayName := "Customers",
                tableName := "Customers", description := "", isDeleted := false,
                fields := [mkField 1 "fullname" "Full Name" "string" true 1,
                           mkField 2 "email" "Email" "string" true 2] }
    fields := [mkField 1 "fullname" "Full Name" "string" true 1,
               mkField 2 "email" "Email" "string" true 2] }

def dtoC7 : JsObj := [("FullName", .str "A"), ("Email", .str "a@x.com")]

/-- Claim C8 fixtures: one entity with one stored record. -/
def rowC8 : EntityDefinitionRow :=
  { id := 8, entityName := "Ticket", displayName := "Tickets",
    tableName := "Tickets", description := "", isDeleted := false }

def recC8 : DynamicRecord :=
  { id := "r1", entityId := 8, data := "\x7b\x7d", isDeleted := false, createdAt := 0 }

def dbC8 : Db :=
  { entityDefinitions := [rowC8], fieldDefinitions := [], dynamicRecords := [recC8] }

/-- The C8 store after the first (successful) soft delete. -/
def dbC8after : Db :=
  { entityDefinitions := [rowC8], fieldDefinitions := [],
    dynamicRecords := [{ recC8 with isDeleted := true }] }

/-- Claim C9 fixtures: fields stored out of display order, one
soft-deleted field, one field of another entity. -/
def rowC9 : EntityDefinitionRow :=
  { id := 9, entityName := "Order", displayName := "Orders",
    tableName := "Orders", description := "", isDeleted := false }

def dbC9 : Db :=
  { entityDefinitions := [rowC9]
    fieldDefinitions :=
      [{ mkField 1 "total" "Total" "decimal" true 2 with entityId := 9 },
       { mkField 2 "ref" "Reference" "string" true 1 with entityId := 9 },
       { mkField 3 "legacy" "Legacy" "string" false 0 with entityId := 9, isDeleted := true },
       { mkField 4 "other" "Other" "string" false 0 with entityId := 77 }]
    dynamicRecords := [] }

def ctxC9 : DynamicEntityContext := contextOfRow dbC9 rowC9

/-- Claim C10 fixtures: a store holding a visible record of the entity, a
soft-deleted record of the entity, and a record of another entity. -/
def dbC10 : Db :=
  { entityDefinitions := [rowC9]
    fieldDefinitions := []
    dynamicRecords :=
      [{ id := "a", entityId := 9, data := "\x7b\x7d", isDeleted := false, createdAt := 1 },
       { id := "b", entityId := 9, data := "\x7b\x7d", isDeleted := true, createdAt := 2 },
       { id := "c", entityId := 77, data := "\x7b\x7d", isDeleted := false, createdAt := 3 }] }

def ctxC10 : DynamicEntityContext := contextOfRow dbC10 rowC9

end DynWS

namespace DynWS

/-! Helper lemmas shared by the claim theorems. -/

lemma exceptBindOk {ε α β : Type} (a : α) (f : α → Except ε β) :
    (Except.ok a >>= f : Except ε β) = f a := rfl

lemma exceptBindErr {ε α β : Type} (e : ε) (f : α → Except ε β) :
    ((Except.error e : Except ε α) >>= f : Except ε β) = Except.error e := rfl

lemma validateFields_cons_error {rt : JsRuntime} {g : FieldDefinitionDto}
    {rest : List FieldDefinitionDto} {nd : JsObj} {e : JsThrow}
    (h : checkField rt g nd = .error e) :
    validateFields rt (g :: rest) nd = .error e := by
  simp only [validateFields, h]
  rfl

lemma validateFields_cons_ok {rt : JsRuntime} {g : FieldDefinitionDto}
    {rest : List FieldDefinitionDto} {nd : JsObj}
    (h : checkField rt g nd = .ok ()) :
    validateFields rt (g :: rest) nd = validateFields rt rest nd := by
  simp only [validateFields, h]
  rfl

lemma validateFields_first_error {rt : JsRuntime} {nd : JsObj} {e : JsThrow}
    {f : FieldDefinitionDto} {fs2 : List FieldDefinitionDto} :
    ∀ fs1 : List FieldDefinitionDto,
    (∀ g ∈ fs1, checkField rt g nd = .ok ()) →
    checkField rt f nd = .error e →
    validateFields rt (fs1 ++ f :: fs2) nd = .error e
  | [], _, hf => validateFields_cons_error hf
  | g :: gs, hpre, hf => by
    rw [List.cons_append, validateFields_cons_ok (hpre g (by simp))]
    exact validateFields_first_error gs (fun x hx => hpre x (by simp [hx])) hf

lemma checkField_invalid_pattern (rt : JsRuntime) (f : FieldDefinitionDto)
    (nd : JsObj) (p s : String)
    (hty : f.fieldType = "string") (hpat : f.pattern = some p) (hp : p ≠ "")
    (hre : rt.regexCompile p = none)
    (hmax : f.maxLength = none) (hmin : f.minLength = none)
    (hval : objGet nd (jsToLowerCase f.fieldName) = .str s) (hs : s ≠ "") :
    checkField rt f nd = .error (.uncaught (invalidRegexMsg p)) := by
  simp only [checkField, hval, hty, hpat, hmax, hmin, hre, jsStrictEq, hs]
  simp [hp]
  rfl

lemma objGet_nil (k : String) : objGet [] k = .undefVal := rfl

lemma containsKey_nil (k : String) : containsKey [] k = false := rfl

lemma objGet_cons (kv : String × JsVal) (rest : JsObj) (k : String) :
    objGet (kv :: rest) k = if kv.1 = k then kv.2 else objGet rest k := by
  by_cases h : kv.1 = k <;> simp [objGet, List.find?_cons, h]

lemma containsKey_cons (kv : String × JsVal) (rest : JsObj) (k : String) :
    containsKey (kv :: rest) k = (decide (kv.1 = k) || containsKey rest k) := by
  simp [containsKey]

lemma objSet_cons (kv : String × JsVal) (rest : JsObj) (k : String) (v : JsVal) :
    objSet (kv :: rest) k v = if kv.1 = k then (k, v) :: rest else kv :: objSet rest k v := rfl

lemma objGet_objSet_self (o : JsObj) (k : String) (v : JsVal) :
    objGet (objSet o k v) k = v := by
  induction o with
  | nil => simp [objSet, objGet_cons]
  | cons kv rest ih =>
    rw [objSet_cons]
    by_cases h : kv.1 = k
    · simp [objGet_cons, h]
    · simp [objGet_cons, h, ih]

lemma objGet_objSet_ne (o : JsObj) (k : String) (v : JsVal) (k2 : String)
    (h : k2 ≠ k) : objGet (objSet o k v) k2 = objGet o k2 := by
  have hks : k ≠ k2 := Ne.symm h
  induction o with
  | nil => simp [objSet, objGet_cons, objGet_nil, hks]
  | cons kv rest ih =>
    rw [objSet_cons]
    by_cases hk : kv.1 = k
    · have hkv2 : ¬ kv.1 = k2 := by rw [hk]; exact hks
      rw [if_pos hk, objGet_cons, objGet_cons]
      simp [hks, hkv2]
    · rw [if_neg hk, objGet_cons, objGet_cons]
      by_cases hk2 : kv.1 = k2
      · simp [hk2]
      · simp [hk2, ih]

lemma objGet_eq_undef_of_not_contains (o : JsObj) (k : String)
    (h : containsKey o k = false) : objGet o k = .undefVal := by
  induction o with
  | nil => rfl
  | cons kv rest ih =>
    rw [containsKey_cons, Bool.or_eq_false_iff] at h
    rw [objGet_cons]
    have h1 : ¬ kv.1 = k := by simpa using h.1
    simp [h1, ih h.2]

lemma spreadInto_cons (base : JsObj) (kv : String × JsVal) (rest : JsObj) :
    spreadInto base (kv :: rest) = spreadInto (objSet base kv.1 kv.2) rest := rfl

lemma objGet_spreadInto_not_mem (base src : JsObj) (k : String)
    (h : containsKey src k = false) :
    objGet (spreadInto base src) k = objGet base k := by
  induction src generalizing base with
  | nil => rfl
  | cons kv rest ih =>
    rw [containsKey_cons, Bool.or_eq_false_iff] at h
    have h1 : ¬ kv.1 = k := by simpa using h.1
    rw [spreadInto_cons, ih (objSet base kv.1 kv.2) h.2]
    exact objGet_objSet_ne base kv.1 kv.2 k (fun hk => h1 hk.symm)

lemma objGet_spreadInto_mem (base src : JsObj) (k : String)
    (hnd : List.Nodup (src.map Prod.fst))
    (h : containsKey src k = true) :
    objGet (spreadInto base src) k = objGet src k := by
  induction src generalizing base with
  | nil => simp [containsKey] at h
  | cons kv rest ih =>
    rw [List.map_cons, List.nodup_cons] at hnd
    rw [spreadInto_cons, objGet_cons]
    by_cases hk : kv.1 = k
    · subst hk
      have hrest : containsKey rest kv.1 = false := by
        by_contra hc
        rw [Bool.not_eq_false, containsKey, List.any_eq_true] at hc
        rcases hc with ⟨x, hx, hxk⟩
        exact hnd.1 (List.mem_map.mpr ⟨x, hx, by simpa using hxk⟩)
      rw [objGet_spreadInto_not_mem _ _ _ hrest, objGet_objSet_self]
      simp
    · have hrest : containsKey rest k = true := by
        rw [containsKey_cons, Bool.or_eq_true] at h
        rcases h with h | h
        · exact absurd (of_decide_eq_true h) hk
        · exact h
      rw [ih (objSet base kv.1 kv.2) hnd.2 hrest]
      simp [hk]

lemma objGet_spreadInto_nil (src : JsObj) (k : String)
    (hnd : List.Nodup (src.map Prod.fst)) :
    objGet (spreadInto [] src) k = objGet src k := by
  by_cases h : containsKey src k = true
  · exact objGet_spreadInto_mem [] src k hnd h
  · rw [Bool.not_eq_true] at h
    rw [objGet_spreadInto_not_mem [] src k h, objGet_eq_undef_of_not_contains src k h]
    rfl

lemma containsKey_objSet_iff (o : JsObj) (k : String) (v : JsVal) (k2 : String) :
    containsKey (objSet o k v) k2 = true ↔ (k = k2 ∨ containsKey o k2 = true) := by
  induction o with
  | nil => simp [objSet, containsKey_cons, containsKey_nil]
  | cons kv rest ih =>
    rw [objSet_cons]
    by_cases hk : kv.1 = k
    · rw [if_pos hk, containsKey_cons, containsKey_cons]
      constructor
      · intro h
        rcases Bool.or_eq_true _ _ |>.mp h with h | h
        · exact Or.inl (of_decide_eq_true h)
        · exact Or.inr (by simp [h])
      · intro h
        rcases h with h | h
        · simp [h]
        · rcases Bool.or_eq_true _ _ |>.mp h with h | h
          · have : kv.1 = k2 := of_decide_eq_true h
            simp [hk ▸ this]
          · simp [h]
    · rw [if_neg hk, containsKey_cons, containsKey_cons]
      constructor
      · intro h
        rcases Bool.or_eq_true _ _ |>.mp h with h | h
        · exact Or.inr (by simp [h])
        · rcases ih.mp h with h | h
          · exact Or.inl h
          · exact Or.inr (by simp [h])
      · intro h
        rcases h with h | h
        · exact Bool.or_eq_true _ _ |>.mpr (Or.inr (ih.mpr (Or.inl h)))
        · rcases Bool.or_eq_true _ _ |>.mp h with h | h
          · simp [h]
          · exact Bool.or_eq_true _ _ |>.mpr (Or.inr (ih.mpr (Or.inr h)))

lemma normalizePayload_keys (context : DynamicEntityContext) (dto : JsObj) (k : String)
    (h : containsKey (normalizePayload context dto) k = true) :
    ∃ f ∈ context.fields, f.fieldName = k := by
  unfold normalizePayload at h
  suffices hgen : ∀ (l : JsObj) (acc : JsObj),
      containsKey (l.foldl (fun acc kv =>
        match context.fields.find?
            (fun f => jsToLowerCase f.fieldName = jsToLowerCase kv.1) with
        | some matchingField => objSet acc matchingField.fieldName kv.2
        | none => acc) acc) k = true →
      containsKey acc k = true ∨ ∃ f ∈ context.fields, f.fieldName = k by
    rcases hgen dto [] h with hc | hres
    · simp [containsKey_nil] at hc
    · exact hres
  intro l
  induction l with
  | nil => exact fun acc h => Or.inl h
  | cons kv rest ih =>
    intro acc h
    rw [List.foldl_cons] at h
    rcases hf : context.fields.find?
        (fun f => jsToLowerCase f.fieldName = jsToLowerCase kv.1) with _ | f
    · rw [hf] at h
      exact ih acc h
    · rw [hf] at h
      rcases ih _ h with hc | hres
      · rcases (containsKey_objSet_iff acc f.fieldName kv.2 k).mp hc with he | hc
        · exact Or.inr ⟨f, List.mem_of_find?_eq_some hf, he⟩
        · exact Or.inl hc
      · exact Or.inr hres

lemma replaceFirst_id_eq :
    ∀ (l : List DynamicRecord) (i : String) (r0 r2 : DynamicRecord),
    (l.map (fun x => x.id)).Nodup →
    l.find? (fun y => y.id = i) = some r0 →
    ∀ x ∈ replaceFirstById l i r2, x.id = i → x = r2 := by
  intro l
  induction l with
  | nil => intro i r0 r2 _ _ x hx; simp [replaceFirstById] at hx
  | cons a rest ih =>
    intro i r0 r2 hnd hf x hx hxi
    rw [List.map_cons, List.nodup_cons] at hnd
    by_cases ha : a.id = i
    · simp only [replaceFirstById, if_pos ha] at hx
      rcases List.mem_cons.mp hx with h | h
      · exact h
      · exact absurd (List.mem_map.mpr ⟨x, h, hxi.trans ha.symm⟩) hnd.1
    · simp only [replaceFirstById, if_neg ha] at hx
      rcases List.mem_cons.mp hx with h | h
      · subst h; exact absurd hxi ha
      · rw [List.find?_cons_of_neg _ (by simpa using ha)] at hf
        exact ih i r0 r2 hnd.2 hf x h hxi

lemma matchesWhere_entity_active (eid : Nat) (x : DynamicRecord) :
    matchesWhere { id := none, entityId := some eid, isDeleted := some false } x =
      (decide (x.entityId = eid) && !x.isDeleted) := by
  simp only [matchesWhere]
  cases hd : x.isDeleted <;> simp

end DynWS

namespace DynWS

/-! Claim theorems. -/

/-- C1 counterexample. With two required fields both missing (empty
payload against `ctxC1`), `validateRecordData` reports only the first
field's violation — it throws a single `BadRequestException` for
`First Field` and does not report the violation of `Second Field` —
refuting the claim that the validation result contains one entry per
violation across all fields. -/
theorem claim1_counterexample :
    validateRecordData rtTrivial ctxC1 [] = .error (.badRequest (requiredMsg "First Field")) ∧
    validateRecordData rtTrivial ctxC1 [] ≠ .error (.badRequest (requiredMsg "Second Field")) := by
  constructor
  · rfl
  · rw [show validateRecordData rtTrivial ctxC1 [] =
        .error (.badRequest (requiredMsg "First Field")) from rfl]
    simp [requiredMsg]

/-- C1 (corrected). Validation short-circuits: whenever a field of the
context violates its constraint and every field before it in display
order passes, `validateRecordData` returns exactly that field's single
error, reporting no further violations. -/
theorem claim1_theorem (rt : JsRuntime) (context : DynamicEntityContext) (data : JsObj)
    (fs1 fs2 : List FieldDefinitionDto) (f : FieldDefinitionDto) (e : JsThrow)
    (hfields : context.fields = fs1 ++ f :: fs2)
    (hpre : ∀ g ∈ fs1, checkField rt g (normalizeDataKeys data) = .ok ())
    (hf : checkField rt f (normalizeDataKeys data) = .error e) :
    validateRecordData rt context data = .error e := by
  unfold validateRecordData
  rw [hfields]
  exact validateFields_first_error fs1 hpre hf

/-- C1 witness: the corrected theorem applied to the two-required-field
context with an empty payload yields the first field's error. -/
theorem claim1_witness :
    validateRecordData rtTrivial ctxC1 [] = .error (.badRequest (requiredMsg "First Field")) :=
  claim1_theorem rtTrivial ctxC1 [] [] [mkField 2 "secondField" "Second Field" "string" true 2]
    (mkField 1 "firstField" "First Field" "string" true 1)
    (.badRequest (requiredMsg "First Field")) rfl
    (by intro g hg; exact absurd hg (List.not_mem_nil g)) rfl

/-- C2 (code bug). Against an enum field whose well-formed options are
`[{"value":"active"},{"value":"inactive"}]`, the inner enum check does
throw `BadRequestException` for the value `"pending"` (first conjunct),
but the enclosing `try/catch` of `validateRecordData` swallows that very
exception and only logs a warning, so validation **succeeds** on
`"pending"` (second conjunct) exactly as it does on the valid value
`"active"` (third conjunct): the failure is never surfaced to the
caller, contradicting the claim, the spec, and the check's own intent. -/
theorem claim2_theorem :
    enumOptionsCheck rtEnum fieldStatus (.str "pending") =
      .error (.badRequest (invalidValueMsg "Status")) ∧
    validateRecordData rtEnum ctxC2 [("status", .str "pending")] = .ok () ∧
    validateRecordData rtEnum ctxC2 [("status", .str "active")] = .ok () :=
  ⟨rfl, rfl, rfl⟩

/-- C3 counterexample. For a string field whose `pattern` metadata `[`
is not a valid regular expression (the oracle models `new RegExp`
throwing, as the real constructor does on `[`), validating the value
`"x"` — which meets every other constraint — does NOT succeed: the
constructor's error escapes `validateRecordData` uncaught and fails the
request, refuting the claim that the invalid pattern is logged and
treated as no constraint. -/
theorem claim3_counterexample :
    validateRecordData rtBadRegex ctxC3 [("code", .str "x")] =
      .error (.uncaught (invalidRegexMsg "[")) := rfl

/-- C3 (corrected). For every string field whose pattern does not
compile, validating a payload that passes every earlier check ends in an
uncaught (non-`BadRequestException`) error: `new RegExp(field.pattern)`
is not wrapped in try/catch, so the request fails instead of degrading
to "no pattern constraint". -/
theorem claim3_theorem (rt : JsRuntime) (context : DynamicEntityContext) (data : JsObj)
    (fs1 fs2 : List FieldDefinitionDto) (f : FieldDefinitionDto) (p s : String)
    (hfields : context.fields = fs1 ++ f :: fs2)
    (hpre : ∀ g ∈ fs1, checkField rt g (normalizeDataKeys data) = .ok ())
    (hty : f.fieldType = "string") (hpat : f.pattern = some p) (hp : p ≠ "")
    (hre : rt.regexCompile p = none)
    (hmax : f.maxLength = none) (hmin : f.minLength = none)
    (hval : objGet (normalizeDataKeys data) (jsToLowerCase f.fieldName) = .str s)
    (hs : s ≠ "") :
    validateRecordData rt context data = .error (.uncaught (invalidRegexMsg p)) := by
  unfold validateRecordData
  rw [hfields]
  exact validateFields_first_error fs1 hpre
    (checkField_invalid_pattern rt f (normalizeDataKeys data) p s hty hpat hp hre hmax hmin hval hs)

/-- C3 witness: the corrected theorem applied to the invalid pattern `[`
and payload value `"x"`. -/
theorem claim3_witness :
    "[" ≠ "" ∧ rtBadRegex.regexCompile "[" = none ∧
    validateRecordData rtBadRegex ctxC3 [("code", .str "x")] =
      .error (.uncaught (invalidRegexMsg "[")) :=
  ⟨by decide, rfl,
    claim3_theorem rtBadRegex ctxC3 [("code", .str "x")] [] [] fieldCode "[" "x"
      rfl (by intro g hg; exact absurd hg (List.not_mem_nil g))
      rfl rfl (by decide) rfl rfl rfl rfl (by decide)⟩

/-- C4 counterexample. Merging incoming `{"FullName": "B"}` over stored
`{"fullname": "A"}` keeps BOTH keys — the incoming key does not replace
the stored key of the same case-insensitively matched field, and the
stored value survives unchanged — refuting the claim that the merge
matches keys case-insensitively leaving a single key. -/
theorem claim4_counterexample :
    mergeForUpdate (.obj [("fullname", .str "A")]) [("FullName", .str "B")] =
      [("fullname", .str "A"), ("FullName", .str "B")] ∧
    objGet (mergeForUpdate (.obj [("fullname", .str "A")]) [("FullName", .str "B")]) "fullname" =
      .str "A" :=
  ⟨rfl, rfl⟩

/-- C4 (corrected). The update merge `{ ...existing.data, ...dto }` is
case-sensitive on keys: for every stored object and incoming payload
(each with unique keys, as JS objects are), a key present in the
incoming payload ends up with the incoming value, and a key absent from
the incoming payload (under exact spelling) is preserved from the
existing record — keys differing only in case are distinct. -/
theorem claim4_theorem (kvs dto : JsObj) (k : String)
    (hnd1 : (kvs.map Prod.fst).Nodup) (hnd2 : (dto.map Prod.fst).Nodup) :
    (containsKey dto k = true →
      objGet (mergeForUpdate (.obj kvs) dto) k = objGet dto k) ∧
    (containsKey dto k = false →
      objGet (mergeForUpdate (.obj kvs) dto) k = objGet kvs k) := by
  constructor
  · intro h
    exact objGet_spreadInto_mem _ dto k hnd2 h
  · intro h
    unfold mergeForUpdate
    rw [objGet_spreadInto_not_mem _ dto k h]
    exact objGet_spreadInto_nil kvs k hnd1

/-- C4 witness: merging `{"nickname": "N"}` into `{"fullname": "A"}`
preserves the untouched key `fullname`. -/
theorem claim4_witness :
    containsKey [("nickname", .str "N")] "fullname" = false ∧
    objGet (mergeForUpdate (.obj [("fullname", .str "A")]) [("nickname", .str "N")]) "fullname" =
      objGet [("fullname", .str "A")] "fullname" :=
  ⟨rfl, (claim4_theorem [("fullname", .str "A")] [("nickname", .str "N")] "fullname"
    (by simp) (by simp)).2 rfl⟩

/-- C5 counterexample. Creating with payload
`{"fullname": "A", "extra": "B"}` against an entity whose only field is
`fullname` drops the unknown key `extra` from the persisted payload,
refuting the claim that unknown keys pass through unvalidated into the
stored record. -/
theorem claim5_counterexample :
    normalizePayload ctxC5 [("fullname", .str "A"), ("extra", .str "B")] =
      [("fullname", .str "A")] ∧
    containsKey (normalizePayload ctxC5 [("fullname", .str "A"), ("extra", .str "B")]) "extra" =
      false :=
  ⟨rfl, rfl⟩

/-- C5 (corrected). The payload persisted by `createRecord` contains
only keys that are exactly a defined field's `fieldName`; every payload
key matching no field case-insensitively is removed rather than passed
through. -/
theorem claim5_theorem (context : DynamicEntityContext) (dto : JsObj) (k : String) :
    (containsKey (normalizePayload context dto) k = true →
      ∃ f ∈ context.fields, f.fieldName = k) ∧
    ((∀ f ∈ context.fields, jsToLowerCase f.fieldName ≠ jsToLowerCase k) →
      containsKey (normalizePayload context dto) k = false) := by
  constructor
  · exact normalizePayload_keys context dto k
  · intro hno
    by_contra hc
    rw [Bool.not_eq_false] at hc
    rcases normalizePayload_keys context dto k hc with ⟨f, hf, hfk⟩
    exact hno f hf (by rw [hfk])

/-- C5 witness: the corrected theorem applied to the single-field
context shows the persisted key `fullname` is a metadata field name. -/
theorem claim5_witness :
    containsKey (normalizePayload ctxC5 [("fullname", .str "A")]) "fullname" = true ∧
    (∃ f ∈ ctxC5.fields, f.fieldName = "fullname") :=
  ⟨rfl, (claim5_theorem ctxC5 [("fullname", .str "A")] "fullname").1 rfl⟩

/-- C6 counterexample. `getRecords` passes `page`/`pageSize` to
`buildFindMany` unchanged — no coercion to ≥ 1 happens anywhere — so
`page = 0, pageSize = 10` yields a descriptor with `skip = -10 < 0`, and
`page = -3` yields `skip = -40`, refuting the claim that the descriptor
always has `skip ≥ 0`. -/
theorem claim6_counterexample :
    findManySkip (getRecordsQuery ctxC5 0 10) = -10 ∧
    findManySkip (getRecordsQuery ctxC5 0 10) < 0 ∧
    findManySkip (getRecordsQuery ctxC5 (-3) 10) = -40 :=
  ⟨rfl, by decide, rfl⟩

/-- C6 (corrected). The descriptor's pagination is exactly
`skip = (page-1)*pageSize` and `take = pageSize` with no coercion;
`skip ≥ 0` and `take ≥ 1` therefore hold when the caller supplies
`page ≥ 1` and `pageSize ≥ 1` (and can fail otherwise). -/
theorem claim6_theorem (context : DynamicEntityContext) (page pageSize : Int)
    (hp : 1 ≤ page) (hps : 1 ≤ pageSize) :
    findManySkip (getRecordsQuery context page pageSize) = (page - 1) * pageSize ∧
    0 ≤ findManySkip (getRecordsQuery context page pageSize) ∧
    1 ≤ findManyTake (getRecordsQuery context page pageSize) := by
  refine ⟨rfl, ?_, hps⟩
  have h1 : (0 : Int) ≤ page - 1 := by omega
  have h2 : (0 : Int) ≤ pageSize := by omega
  show (0 : Int) ≤ (page - 1) * pageSize
  exact mul_nonneg h1 h2

/-- C6 witness: the corrected theorem at `page = 2, pageSize = 10`. -/
theorem claim6_witness :
    (1 : Int) ≤ 2 ∧ (1 : Int) ≤ 10 ∧
    (0 ≤ findManySkip (getRecordsQuery ctxC5 2 10) ∧
     1 ≤ findManyTake (getRecordsQuery ctxC5 2 10)) :=
  ⟨by decide, by decide, (claim6_theorem ctxC5 2 10 (by decide) (by decide)).2⟩

/-- C7 (confirmed). Whenever the schema context loads and validation
accepts the payload, `createRecord` succeeds, persisting exactly the
normalised payload; and every key of that persisted payload is spelled
exactly as some metadata field's declared `fieldName` — the caller's
casing never reaches the store. -/
theorem claim7_theorem (rt : JsRuntime) (db : Db) (entityName : String) (dto : JsObj)
    (freshId : String) (now : Int) (ctx : DynamicEntityContext)
    (hctx : getEntityContext db entityName = .ok ctx)
    (hval : validateRecordData rt ctx dto = .ok ()) :
    createRecord rt db entityName dto freshId now =
      .ok ({ db with dynamicRecords := db.dynamicRecords ++ [createdRecordRow rt ctx dto freshId now] },
           deserializeRecord rt (createdRecordRow rt ctx dto freshId now)) ∧
    ∀ k, containsKey (normalizePayload ctx dto) k = true → ∃ f ∈ ctx.fields, f.fieldName = k := by
  constructor
  · unfold createRecord
    rw [hctx, exceptBindOk, hval]
    rfl
  · exact fun k hk => normalizePayload_keys ctx dto k hk

/-- C7 witness: creating `{"FullName": "A", "Email": "a@x.com"}` against
fields declared `fullname`/`email` succeeds with metadata-cased keys. -/
theorem claim7_witness :
    createRecord rtTrivial dbC7 "Customer" dtoC7 "rec-1" 0 =
      .ok ({ dbC7 with dynamicRecords := dbC7.dynamicRecords ++ [createdRecordRow rtTrivial ctxC7 dtoC7 "rec-1" 0] },
           deserializeRecord rtTrivial (createdRecordRow rtTrivial ctxC7 dtoC7 "rec-1" 0)) ∧
    ∀ k, containsKey (normalizePayload ctxC7 dtoC7) k = true → ∃ f ∈ ctxC7.fields, f.fieldName = k :=
  claim7_theorem rtTrivial dbC7 "Customer" dtoC7 "rec-1" 0 ctxC7 rfl rfl

/-- C8 (confirmed). After a successful soft delete (in a store whose
record ids are unique, as Prisma's `@id` guarantees), soft-deleting the
same record through the same entity again fails with `RecordNotFound`:
the first delete set `isDeleted`, the pre-delete read filters on
`isDeleted = false`, and the error is thrown before any write, so the
second call changes no state (all state changes flow through the
returned store, absent from an `error` result). -/
theorem claim8_theorem (rt : JsRuntime) (db : Db) (e r : String) (db2 : Db)
    (hnd : (db.dynamicRecords.map (fun x => x.id)).Nodup)
    (h1 : deleteRecord rt db e r = .ok db2) :
    deleteRecord rt db2 e r = .error (.notFound (recordNotFoundMsg r e)) := by
  unfold deleteRecord at h1
  cases hg : getRecordById rt db e r with
  | error err => rw [hg, exceptBindErr] at h1; exact absurd h1 (by simp)
  | ok dto =>
    rw [hg, exceptBindOk] at h1
    cases hw : executeWrite db (buildSoftDelete r) with
    | error err => rw [hw, exceptBindErr] at h1; exact absurd h1 (by simp)
    | ok p =>
      rw [hw, exceptBindOk] at h1
      have hw2 : (execUpdate db r none (some true)).mapError liftThrow = .ok p := hw
      unfold execUpdate at hw2
      cases hf : db.dynamicRecords.find? (fun x => x.id = r) with
      | none => rw [hf] at hw2; exact absurd hw2 (by simp [Except.mapError])
      | some r0 =>
        rw [hf] at hw2
        have hw3 : (Except.ok (softDeleted db r r0, applyUpdate r0 none (some true)) :
            Except DynError (Db × DynamicRecord)) = .ok p := hw2
        have hpair : (softDeleted db r r0, applyUpdate r0 none (some true)) = p := by
          injection hw3
        have hdb2 : db2 = softDeleted db r r0 := by
          rw [← hpair] at h1
          injection h1 with h1e
          exact h1e.symm
        unfold getRecordById at hg
        cases hctx : getEntityContext db e with
        | error err2 => rw [hctx, exceptBindErr] at hg; exact absurd hg (by simp)
        | ok ctx =>
          have hnone : execFindFirst db2
              { id := some r, entityId := some ctx.entity.id, isDeleted := some false } = none := by
            unfold execFindFirst
            rw [List.find?_eq_none]
            intro x hx hmw
            rw [hdb2] at hx
            simp only [matchesWhere, Bool.and_eq_true, decide_eq_true_eq] at hmw
            have hxeq : x = applyUpdate r0 none (some true) :=
              replaceFirst_id_eq db.dynamicRecords r r0 (applyUpdate r0 none (some true))
                hnd hf x hx hmw.1.1
            have hdel : x.isDeleted = true := by rw [hxeq]; rfl
            rw [hmw.2] at hdel
            exact Bool.false_ne_true hdel
          have hctx2 : getEntityContext db2 e = .ok ctx := by
            rw [hdb2]
            exact hctx
          have hget2 : getRecordById rt db2 e r = .error (.notFound (recordNotFoundMsg r e)) := by
            unfold getRecordById
            rw [hctx2, exceptBindOk]
            have hro : executeReadOne db2 (buildFindOne ctx r) =
                Except.ok (execFindFirst db2
                  { id := some r, entityId := some ctx.entity.id, isDeleted := some false }) := rfl
            rw [hnone] at hro
            rw [hro, exceptBindOk]
            rfl
          unfold deleteRecord
          rw [hget2, exceptBindErr]

/-- C8 witness: deleting record `r1` of entity `Ticket` once succeeds
(the hypothesis is discharged by evaluation), and the second delete
returns `RecordNotFound`. -/
theorem claim8_witness :
    deleteRecord rtTrivial dbC8after "Ticket" "r1" =
      .error (.notFound (recordNotFoundMsg "r1" "Ticket")) :=
  claim8_theorem rtTrivial dbC8 "Ticket" "r1" dbC8after (by decide) rfl

/-- C9 counterexample. The `entity_definitions` table carries the
case-insensitive `utf8mb4_unicode_ci` collation, so the Prisma
`entityName` filter of `getEntityByName` matches case-insensitively:
looking up `"order"` against a store whose only entity is named
`"Order"` succeeds — although no non-deleted entity definition has
`"order"` as an exact (case-sensitive) match — refuting the claim that
loading fails with NotFound exactly when there is no exact
case-sensitive match. -/
theorem claim9_counterexample :
    getEntityContext dbC9 "order" = .ok ctxC9 ∧
    ∀ e ∈ dbC9.entityDefinitions, e.entityName ≠ "order" :=
  ⟨rfl, by decide⟩

/-- C9 (corrected). `getEntityContext` fails — and fails specifically
with the `NotFound` error — exactly when no non-deleted entity
definition matches the name under the column's case-insensitive
collation (equality up to letter case); on success the context's field
list is sorted by `displayOrder` ascending and is a permutation of
(exactly) the matched entity's non-soft-deleted field definitions. -/
theorem claim9_theorem (db : Db) (name : String) :
    (∀ err, getEntityContext db name = .error err →
      err = .notFound (entityNotFoundMsg name) ∧
      ∀ e ∈ db.entityDefinitions,
        ¬(jsToLowerCase e.entityName = jsToLowerCase name ∧ e.isDeleted = false)) ∧
    ((∃ e ∈ db.entityDefinitions,
        jsToLowerCase e.entityName = jsToLowerCase name ∧ e.isDeleted = false) →
      ∃ ctx, getEntityContext db name = .ok ctx) ∧
    (∀ ctx, getEntityContext db name = .ok ctx →
      ctx.fields.Sorted (fun a b => a.displayOrder ≤ b.displayOrder) ∧
      ∃ e ∈ db.entityDefinitions, jsToLowerCase e.entityName = jsToLowerCase name ∧
        e.isDeleted = false ∧
        ctx.fields.Perm (db.fieldDefinitions.filter (fun f => f.entityId = e.id && !f.isDeleted))) := by
  cases hfind : db.entityDefinitions.find? (fun e => collationEq e.entityName name && !e.isDeleted) with
  | none =>
    have herr : getEntityContext db name = .error (.notFound (entityNotFoundMsg name)) := by
      unfold getEntityContext getEntityByName
      rw [hfind]
      rfl
    refine ⟨?_, ?_, ?_⟩
    · intro err he
      rw [herr] at he
      injection he with he2
      refine ⟨he2.symm, ?_⟩
      intro e hme ⟨hn, hd⟩
      have := List.find?_eq_none.mp hfind e hme
      simp [collationEq, hn, hd] at this
    · rintro ⟨e, hme, hn, hd⟩
      have := List.find?_eq_none.mp hfind e hme
      simp [collationEq, hn, hd] at this
    · intro ctx hctx
      rw [herr] at hctx
      exact absurd hctx (by simp)
  | some e0 =>
    have hok : getEntityContext db name = .ok (contextOfRow db e0) := by
      unfold getEntityContext getEntityByName
      rw [hfind]
      rfl
    have hprop := List.find?_some hfind
    simp only [collationEq, Bool.and_eq_true, decide_eq_true_eq, Bool.not_eq_true'] at hprop
    refine ⟨?_, ?_, ?_⟩
    · intro err he
      rw [hok] at he
      exact absurd he (by simp)
    · intro _
      exact ⟨contextOfRow db e0, hok⟩
    · intro ctx hctx
      rw [hok] at hctx
      injection hctx with hctx2
      subst hctx2
      constructor
      · haveI h1 : IsTotal FieldDefinitionDto (fun a b => a.displayOrder ≤ b.displayOrder) :=
          ⟨fun a b => le_total a.displayOrder b.displayOrder⟩
        haveI h2 : IsTrans FieldDefinitionDto (fun a b => a.displayOrder ≤ b.displayOrder) :=
          ⟨fun _ _ _ hab hbc => le_trans hab hbc⟩
        exact List.sorted_insertionSort _ _
      · exact ⟨e0, List.mem_of_find?_eq_some hfind, hprop.1, hprop.2,
          List.perm_insertionSort _ _⟩

/-- C9 witness: the amended theorem applied to the case-differing lookup
`"ORDER"` against the entity named `"Order"` (two active fields declared
out of display order, one soft-deleted field, one field of another
entity): the loaded context is sorted and contains exactly the entity's
active fields. -/
theorem claim9_witness :
    ctxC9.fields.Sorted (fun a b => a.displayOrder ≤ b.displayOrder) ∧
    ∃ e ∈ dbC9.entityDefinitions, jsToLowerCase e.entityName = jsToLowerCase "ORDER" ∧
      e.isDeleted = false ∧
      ctxC9.fields.Perm (dbC9.fieldDefinitions.filter
        (fun f => f.entityId = e.id && !f.isDeleted)) :=
  (claim9_theorem dbC9 "ORDER").2.2 ctxC9 rfl

/-- C10 (confirmed). Executing the builder's read descriptors against
any store: every record returned by `findMany` belongs to the context's
entity and is not soft-deleted; the record returned by `findOne`
additionally has the requested id; and `count` counts exactly the
store's non-deleted records of that entity — so no record is ever
served or counted through another entity's name or after soft
deletion. -/
theorem claim10_theorem (db : Db) (ctx : DynamicEntityContext)
    (pag : PaginationOptions) (rid : String) :
    (∀ rs, executeReadMany db (buildFindMany ctx pag) = .ok rs →
      ∀ x ∈ rs, x.entityId = ctx.entity.id ∧ x.isDeleted = false) ∧
    (∀ x, executeReadOne db (buildFindOne ctx rid) = .ok (some x) →
      x.id = rid ∧ x.entityId = ctx.entity.id ∧ x.isDeleted = false) ∧
    (∀ n, executeCount db (buildCount ctx) = .ok n →
      n = (db.dynamicRecords.filter
        (fun x => x.entityId = ctx.entity.id && !x.isDeleted)).length) := by
  refine ⟨?_, ?_, ?_⟩
  · intro rs hrs x hx
    have hrs2 : Except.ok (execFindMany db
        { id := none, entityId := some ctx.entity.id, isDeleted := some false }
        ((pag.page - 1) * pag.pageSize) pag.pageSize) = Except.ok rs := hrs
    injection hrs2 with hrs3
    rw [← hrs3] at hx
    unfold execFindMany at hx
    have hx2 := List.mem_of_mem_drop (List.mem_of_mem_take hx)
    have hx3 := (List.perm_insertionSort
      (fun a b : DynamicRecord => b.createdAt ≤ a.createdAt) _).subset hx2
    have hx4 := List.mem_filter.mp hx3
    have hmw := hx4.2
    rw [matchesWhere_entity_active] at hmw
    rw [Bool.and_eq_true, decide_eq_true_eq, Bool.not_eq_true'] at hmw
    exact ⟨hmw.1, hmw.2⟩
  · intro x hx
    have hx2 : Except.ok (execFindFirst db
        { id := some rid, entityId := some ctx.entity.id, isDeleted := some false }) =
        Except.ok (some x) := hx
    injection hx2 with hx3
    unfold execFindFirst at hx3
    have hmw := List.find?_some hx3
    simp only [matchesWhere, Bool.and_eq_true, decide_eq_true_eq] at hmw
    exact ⟨hmw.1.1, hmw.1.2, hmw.2⟩
  · intro n hn
    have hn2 : Except.ok (execCount db
        { id := none, entityId := some ctx.entity.id, isDeleted := some false }) =
        Except.ok n := hn
    injection hn2 with hn3
    rw [← hn3]
    unfold execCount
    congr 1
    apply List.filter_congr
    intro x _
    rw [matchesWhere_entity_active]

/-- C10 witness: in a store with one visible record of the entity, one
soft-deleted record, and one record of another entity, the count
descriptor counts exactly one record. -/
theorem claim10_witness :
    (1 : Nat) = (dbC10.dynamicRecords.filter
      (fun x => x.entityId = ctxC10.entity.id && !x.isDeleted)).length :=
  (claim10_theorem dbC10 ctxC10 { page := 1, pageSize := 10 } "a").2.2 1 rfl

end DynWS
